import Mathlib

/-!
Shallow embedding of the core of the `procutil` repository: the
`DualCloserWrapper` primitive (closer.go), the `Terminal` handle and its
lowlevel raw-mode calls (term package), the `StreamingProcess` engine, and
the `Command` lifecycle state machine, together with theorems settling the
frozen behavioural claims about them.
-/

namespace Procutil

/-- Errors of the Go code that the model distinguishes.  `backendErr n`
stands for an opaque error produced by a backend, a streamer or the OS. -/
inductive GoErr
  | commandAlreadyInitialized
  | commandNotInitialized
  | commandIsATerminal
  | commandNotATerminal
  | commandNotRunning
  | commandRunning
  | notATerminal
  | invalidState
  | ctxCanceled
  | backendErr (n : Nat)
deriving DecidableEq, Repr

/-! ## DualCloserWrapper (closer.go) -/

/-- Operations of the DualCloser interface (closer.go): `Close` and
`CloseWrite`. -/
inductive DCOp
  | close
  | closeWrite
deriving DecidableEq, Repr

/-- State of a `DualCloserWrapper` (closer.go lines 37-43): the shared call
counter, the two `sync.Once` latches, and the number of times the wrapped
Closer's `Close()` has been invoked so far.  The Go counter is a `uint32`,
but each `sync.Once` body runs at most once, so the counter never exceeds 2
and never wraps; the model therefore carries it as a `Nat`. -/
structure DualCloserWrapper where
  count : Nat
  closeOnce : Bool
  closeWriteOnce : Bool
  underlyingCloseCalls : Nat
deriving DecidableEq, Repr

/-- The zero value of a `DualCloserWrapper` in Go. -/
def DualCloserWrapper.start : DualCloserWrapper :=
  { count := 0, closeOnce := false, closeWriteOnce := false, underlyingCloseCalls := 0 }

/-- `DualCloserWrapper.Close` (closer.go lines 46-53): under the `close`
latch, increment the counter and, exactly when it reaches 2, invoke the
wrapped Closer's `Close()`. -/
def DualCloserWrapper.CloseStep (w : DualCloserWrapper) : DualCloserWrapper :=
  if w.closeOnce then w
  else
    { w with
      count := w.count + 1
      closeOnce := true
      underlyingCloseCalls :=
        if w.count + 1 = 2 then w.underlyingCloseCalls + 1 else w.underlyingCloseCalls }

/-- `DualCloserWrapper.CloseWrite` (closer.go lines 56-63): same as `Close`
but guarded by the `closeWrite` latch. -/
def DualCloserWrapper.CloseWriteStep (w : DualCloserWrapper) : DualCloserWrapper :=
  if w.closeWriteOnce then w
  else
    { w with
      count := w.count + 1
      closeWriteOnce := true
      underlyingCloseCalls :=
        if w.count + 1 = 2 then w.underlyingCloseCalls + 1 else w.underlyingCloseCalls }

/-- Dispatch one call on the wrapper. -/
def dcwStep (w : DualCloserWrapper) (op : DCOp) : DualCloserWrapper :=
  match op with
  | .close => w.CloseStep
  | .closeWrite => w.CloseWriteStep

/-- Run a finite sequence of `Close`/`CloseWrite` calls from a given state. -/
def dcwRunFrom (w : DualCloserWrapper) (ops : List DCOp) : DualCloserWrapper :=
  ops.foldl dcwStep w

/-- Run a finite sequence of calls on a freshly constructed wrapper. -/
def dcwRun (ops : List DCOp) : DualCloserWrapper :=
  dcwRunFrom DualCloserWrapper.start ops

/-- Invariant tying a wrapper state to which of the two operations have been
seen so far. -/
def dcwInv (w : DualCloserWrapper) (sc sw : Bool) : Prop :=
  w.closeOnce = sc ∧ w.closeWriteOnce = sw ∧
    w.count = sc.toNat + sw.toNat ∧
    w.underlyingCloseCalls = if sc && sw then 1 else 0

theorem dcwStep_inv (w : DualCloserWrapper) (sc sw : Bool) (op : DCOp)
    (h : dcwInv w sc sw) :
    dcwInv (dcwStep w op)
      (sc || decide (op = DCOp.close)) (sw || decide (op = DCOp.closeWrite)) := by
  obtain ⟨h1, h2, h3, h4⟩ := h
  cases op <;> cases sc <;> cases sw <;>
    simp_all [dcwStep, dcwInv, DualCloserWrapper.CloseStep,
      DualCloserWrapper.CloseWriteStep]

theorem dcwRunFrom_inv (ops : List DCOp) :
    ∀ (w : DualCloserWrapper) (sc sw : Bool), dcwInv w sc sw →
      dcwInv (dcwRunFrom w ops)
        (sc || ops.any (fun o => decide (o = DCOp.close)))
        (sw || ops.any (fun o => decide (o = DCOp.closeWrite))) := by
  induction ops with
  | nil =>
    intro w sc sw h
    simpa [dcwRunFrom] using h
  | cons op rest ih =>
    intro w sc sw h
    have hstep := dcwStep_inv w sc sw op h
    have := ih (dcwStep w op) _ _ hstep
    simpa [dcwRunFrom, List.any_cons, Bool.or_assoc] using this

theorem dcOp_any_eq_mem (o : DCOp) (ops : List DCOp) :
    (ops.any fun x => decide (x = o)) = decide (o ∈ ops) := by
  induction ops with
  | nil => simp
  | cons x xs ihx =>
    by_cases hxo : x = o
    · subst hxo
      simp [List.any_cons]
    · have hox : ¬o = x := fun h => hxo h.symm
      simp [List.any_cons, ihx, hxo, hox]

theorem dcwRun_spec (ops : List DCOp) :
    (dcwRun ops).underlyingCloseCalls =
      if DCOp.close ∈ ops ∧ DCOp.closeWrite ∈ ops then 1 else 0 := by
  have hinit : dcwInv DualCloserWrapper.start false false := by
    simp [dcwInv, DualCloserWrapper.start]
  have h := dcwRunFrom_inv ops DualCloserWrapper.start false false hinit
  obtain ⟨-, -, -, h4⟩ := h
  rw [dcwRun, h4, dcOp_any_eq_mem, dcOp_any_eq_mem]
  by_cases h1 : DCOp.close ∈ ops <;> by_cases h2 : DCOp.closeWrite ∈ ops <;>
    simp [h1, h2]

/-! ## Terminal handles (src/unnamed/part_005, term/term.go, term/lowlevel) -/

/-- Direction of a saved terminal mode, distinguishing the states produced
by `lowlevel.SetRawTerminal` (input) from those produced by
`lowlevel.SetRawTerminalOutput` (output). -/
inductive TermDir
  | input
  | output
deriving DecidableEq, Repr

/-- Model of `lowlevel.TerminalState` (term/lowlevel/raw.go): the saved mode
of one direction of a terminal, as returned by the moby/term wrappers and
later consumed by `lowlevel.ResetTerminal`. -/
structure TerminalState where
  dir : TermDir
  savedRaw : Bool
deriving DecidableEq, Repr

/-- Model of one `term.Terminal` object (src/unnamed/part_005) fused with
the device state its lowlevel calls read and write.  `isTerminal` is the
probe result stored at construction; `inState`/`outState` are the saved
raw-state tokens; `devRawIn`/`devRawOut` are the device's actual current
modes; `devHeight`/`devWidth` is the device's window size (a `uint16` in Go,
carried as `Nat`; no arithmetic is performed on it). -/
structure FileTerm where
  isTerminal : Bool
  inState : Option TerminalState
  outState : Option TerminalState
  devRawIn : Bool
  devRawOut : Bool
  devHeight : Nat
  devWidth : Nat
deriving DecidableEq, Repr

/-- `lowlevel.SetRawTerminal` (term/lowlevel/raw.go): save the current input
mode, put the device input into raw mode, and return the saved state.  On
the model device the syscall succeeds. -/
def llSetRawTerminal (t : FileTerm) : FileTerm × Option TerminalState × Option GoErr :=
  ({ t with devRawIn := true }, some ⟨TermDir.input, t.devRawIn⟩, none)

/-- `lowlevel.SetRawTerminalOutput` (term/lowlevel/raw.go): save the current
output mode, put the device output into raw mode, and return the saved
state. -/
def llSetRawTerminalOutput (t : FileTerm) : FileTerm × Option TerminalState × Option GoErr :=
  ({ t with devRawOut := true }, some ⟨TermDir.output, t.devRawOut⟩, none)

/-- `lowlevel.ResetTerminal` (term/lowlevel/raw.go): restore the mode saved
in `st`; a nil state is rejected (moby/term's invalid-state error). -/
def llResetTerminal (t : FileTerm) (st : Option TerminalState) : FileTerm × Option GoErr :=
  match st with
  | none => (t, some GoErr.invalidState)
  | some s =>
    match s.dir with
    | TermDir.input => ({ t with devRawIn := s.savedRaw }, none)
    | TermDir.output => ({ t with devRawOut := s.savedRaw }, none)

/-- `lowlevel.SetWinsize` (term/lowlevel/winsize_set_supported.go): apply a
window size to the device. -/
def llSetWinsize (t : FileTerm) (hgt wdt : Nat) : FileTerm × Option GoErr :=
  ({ t with devHeight := hgt, devWidth := wdt }, none)

/-- `term.WindowSize`: height and width of a terminal window, compared by
value. -/
structure WindowSize where
  height : Nat
  width : Nat
deriving DecidableEq, Repr

/-- A possibly-nil pointer to a `term.Terminal` object (part_005 uses a nil
`*Terminal` receiver as the null handle). -/
def Terminal : Type := Option FileTerm

instance : DecidableEq Terminal := by
  unfold Terminal
  infer_instance

/-- Descriptor handed to `term.NewTerminal`: either nil, or a device in some
state together with the probe result `lowlevel.GetFdInfo` reports for it. -/
structure TermDevice where
  isTerminal : Bool
  rawIn : Bool
  rawOut : Bool
  height : Nat
  width : Nat
deriving DecidableEq, Repr

/-- `term.NewTerminal` (part_005 lines 30-38): a nil file yields the nil
handle; otherwise the probe result is stored once and the raw-state tokens
start out nil (the Go zero value). -/
def NewTerminal : Option TermDevice → Terminal
  | none => none
  | some d =>
    some { isTerminal := d.isTerminal, inState := none, outState := none,
           devRawIn := d.rawIn, devRawOut := d.rawOut,
           devHeight := d.height, devWidth := d.width }

/-- `Terminal.IsTerminal` (part_005): a nil receiver reports false. -/
def Terminal.IsTerminal : Terminal → Bool
  | none => false
  | some t => t.isTerminal

/-- `Terminal.Close` (part_005): nil receiver or nil file returns nil; the
model device's close always succeeds. -/
def Terminal.Close : Terminal → Option GoErr
  | _ => none

/-- `Terminal.SetRawInput` (part_005 lines 72-78): no-op returning nil on a
nil receiver, a non-terminal, or when an input token is already stored;
otherwise store whatever `lowlevel.SetRawTerminal` returns. -/
def Terminal.SetRawInput : Terminal → Terminal × Option GoErr
  | none => (none, none)
  | some t =>
    if ¬t.isTerminal ∨ t.inState ≠ none then (some t, none)
    else
      let r := llSetRawTerminal t
      (some { r.1 with inState := r.2.1 }, r.2.2)

/-- `Terminal.RestoreInput` (part_005 lines 82-89): no-op returning nil on a
nil receiver or when no input token is stored; otherwise reset the terminal
and wipe the token (the deferred wipe runs even if the reset errs). -/
def Terminal.RestoreInput : Terminal → Terminal × Option GoErr
  | none => (none, none)
  | some t =>
    if t.inState = none then (some t, none)
    else
      let r := llResetTerminal t t.inState
      (some { r.1 with inState := none }, r.2)

/-- `Terminal.SetRawOutput` (part_005 lines 93-99): output counterpart of
`SetRawInput`. -/
def Terminal.SetRawOutput : Terminal → Terminal × Option GoErr
  | none => (none, none)
  | some t =>
    if ¬t.isTerminal ∨ t.outState ≠ none then (some t, none)
    else
      let r := llSetRawTerminalOutput t
      (some { r.1 with outState := r.2.1 }, r.2.2)

/-- `Terminal.RestoreOutput` (part_005 lines 103-110): output counterpart of
`RestoreInput`. -/
def Terminal.RestoreOutput : Terminal → Terminal × Option GoErr
  | none => (none, none)
  | some t =>
    if t.outState = none then (some t, none)
    else
      let r := llResetTerminal t t.outState
      (some { r.1 with outState := none }, r.2)

/-- `Terminal.GetSize` (part_005 lines 117-131): `ErrNotATerminal` unless
the handle is a terminal, else the device's current size. -/
def Terminal.GetSize (tm : Terminal) : Option WindowSize × Option GoErr :=
  if Terminal.IsTerminal tm then
    match tm with
    | some t => (some ⟨t.devHeight, t.devWidth⟩, none)
    | none => (none, some GoErr.notATerminal)
  else (none, some GoErr.notATerminal)

/-- `Terminal.ResizeTo` (part_005 lines 137-143): `ErrNotATerminal` unless
the handle is a terminal, else apply the size via `lowlevel.SetWinsize`. -/
def Terminal.ResizeTo (tm : Terminal) (size : WindowSize) : Terminal × Option GoErr :=
  if Terminal.IsTerminal tm then
    match tm with
    | some t =>
      let r := llSetWinsize t size.height size.width
      (some r.1, r.2)
    | none => (none, some GoErr.notATerminal)
  else (tm, some GoErr.notATerminal)

/-- `nilTerminal.IsTerminal` (term/term.go lines 161-172): the null-object
variant of the Terminal interface reports false. -/
def nilTerminalIsTerminal : Bool := false

/-- `nilTerminal.Close`: constant success. -/
def nilTerminalClose : Option GoErr := none

/-- `nilTerminal.SetRawInput`: constant success with no effect. -/
def nilTerminalSetRawInput : Option GoErr := none

/-- `nilTerminal.RestoreInput`: constant success with no effect. -/
def nilTerminalRestoreInput : Option GoErr := none

/-- `nilTerminal.SetRawOutput`: constant success with no effect. -/
def nilTerminalSetRawOutput : Option GoErr := none

/-- `nilTerminal.RestoreOutput`: constant success with no effect. -/
def nilTerminalRestoreOutput : Option GoErr := none

/-- `nilTerminal.GetSize`: always `ErrNotATerminal`. -/
def nilTerminalGetSize : Option WindowSize × Option GoErr := (none, some GoErr.notATerminal)

/-- `nilTerminal.ResizeTo`: always `ErrNotATerminal`, for every size. -/
def nilTerminalResizeTo (_size : WindowSize) : Option GoErr := some GoErr.notATerminal

/-- The four raw-mode mutators of a Terminal handle. -/
inductive RawOp
  | setIn
  | restoreIn
  | setOut
  | restoreOut
deriving DecidableEq, Repr

/-- Apply one raw-mode mutator, keeping the updated handle. -/
def applyRawOp (tm : Terminal) : RawOp → Terminal
  | RawOp.setIn => (Terminal.SetRawInput tm).1
  | RawOp.restoreIn => (Terminal.RestoreInput tm).1
  | RawOp.setOut => (Terminal.SetRawOutput tm).1
  | RawOp.restoreOut => (Terminal.RestoreOutput tm).1

/-- Apply a finite sequence of raw-mode mutators. -/
def applyRawOps (tm : Terminal) (ops : List RawOp) : Terminal :=
  ops.foldl applyRawOp tm

/-- Claimed invariant: a raw-state token is stored exactly when the
corresponding device mode is currently raw. -/
def tokensMatchModes : Terminal → Prop
  | none => True
  | some t => t.inState.isSome = t.devRawIn ∧ t.outState.isSome = t.devRawOut

/-- Input half of the induction-strength invariant: a stored token records a
non-raw saved mode, and the device input is raw exactly when a token is
stored. -/
def rawInInv (t : FileTerm) : Prop :=
  t.inState = none ∧ t.devRawIn = false ∨
    t.inState = some ⟨TermDir.input, false⟩ ∧ t.devRawIn = true

/-- Output half of the induction-strength invariant. -/
def rawOutInv (t : FileTerm) : Prop :=
  t.outState = none ∧ t.devRawOut = false ∨
    t.outState = some ⟨TermDir.output, false⟩ ∧ t.devRawOut = true

/-- Induction-strength invariant on a possibly-nil handle. -/
def rawStateInv : Terminal → Prop
  | none => True
  | some t => rawInInv t ∧ rawOutInv t

@[simp] theorem rawStateInv_none : rawStateInv none ↔ True := Iff.rfl

@[simp] theorem rawStateInv_some (t : FileTerm) :
    rawStateInv (some t) ↔ rawInInv t ∧ rawOutInv t := Iff.rfl

@[simp] theorem tokensMatchModes_none : tokensMatchModes none ↔ True := Iff.rfl

@[simp] theorem tokensMatchModes_some (t : FileTerm) :
    tokensMatchModes (some t) ↔
      t.inState.isSome = t.devRawIn ∧ t.outState.isSome = t.devRawOut := Iff.rfl

theorem rawStateInv_tokensMatchModes (tm : Terminal) (h : rawStateInv tm) :
    tokensMatchModes tm := by
  cases tm with
  | none => trivial
  | some t =>
    obtain ⟨hIn, hOut⟩ := h
    refine ⟨?_, ?_⟩
    · rcases hIn with ⟨h1, h2⟩ | ⟨h1, h2⟩ <;> simp [h1, h2]
    · rcases hOut with ⟨h1, h2⟩ | ⟨h1, h2⟩ <;> simp [h1, h2]

theorem applyRawOp_inv (tm : Terminal) (op : RawOp) (h : rawStateInv tm) :
    rawStateInv (applyRawOp tm op) := by
  cases tm with
  | none => cases op <;> exact h
  | some t =>
    obtain ⟨hIn, hOut⟩ := h
    cases op with
    | setIn =>
      by_cases hc : ¬t.isTerminal ∨ t.inState ≠ none
      · simp only [applyRawOp, Terminal.SetRawInput, if_pos hc]
        exact ⟨hIn, hOut⟩
      · have h2 : t.devRawIn = false := by
          rcases hIn with ⟨h1, h2⟩ | ⟨h1, h2⟩
          · exact h2
          · exact absurd (Or.inr (by simp [h1])) hc
        simp only [applyRawOp, Terminal.SetRawInput, if_neg hc, llSetRawTerminal,
          rawStateInv_some]
        refine ⟨Or.inr ⟨by simp [h2], rfl⟩, ?_⟩
        rcases hOut with ⟨h1, h2'⟩ | ⟨h1, h2'⟩
        · exact Or.inl ⟨h1, h2'⟩
        · exact Or.inr ⟨h1, h2'⟩
    | restoreIn =>
      by_cases hc : t.inState = none
      · simp only [applyRawOp, Terminal.RestoreInput, if_pos hc]
        exact ⟨hIn, hOut⟩
      · have h1 : t.inState = some ⟨TermDir.input, false⟩ := by
          rcases hIn with ⟨h1, h2⟩ | ⟨h1, h2⟩
          · exact absurd h1 hc
          · exact h1
        simp only [applyRawOp, Terminal.RestoreInput, if_neg hc, h1, llResetTerminal,
          rawStateInv_some]
        refine ⟨Or.inl ⟨rfl, rfl⟩, ?_⟩
        rcases hOut with ⟨h1', h2'⟩ | ⟨h1', h2'⟩
        · exact Or.inl ⟨h1', h2'⟩
        · exact Or.inr ⟨h1', h2'⟩
    | setOut =>
      by_cases hc : ¬t.isTerminal ∨ t.outState ≠ none
      · simp only [applyRawOp, Terminal.SetRawOutput, if_pos hc]
        exact ⟨hIn, hOut⟩
      · have h2 : t.devRawOut = false := by
          rcases hOut with ⟨h1, h2⟩ | ⟨h1, h2⟩
          · exact h2
          · exact absurd (Or.inr (by simp [h1])) hc
        simp only [applyRawOp, Terminal.SetRawOutput, if_neg hc, llSetRawTerminalOutput,
          rawStateInv_some]
        refine ⟨?_, Or.inr ⟨by simp [h2], rfl⟩⟩
        rcases hIn with ⟨h1, h2'⟩ | ⟨h1, h2'⟩
        · exact Or.inl ⟨h1, h2'⟩
        · exact Or.inr ⟨h1, h2'⟩
    | restoreOut =>
      by_cases hc : t.outState = none
      · simp only [applyRawOp, Terminal.RestoreOutput, if_pos hc]
        exact ⟨hIn, hOut⟩
      · have h1 : t.outState = some ⟨TermDir.output, false⟩ := by
          rcases hOut with ⟨h1, h2⟩ | ⟨h1, h2⟩
          · exact absurd h1 hc
          · exact h1
        simp only [applyRawOp, Terminal.RestoreOutput, if_neg hc, h1, llResetTerminal,
          rawStateInv_some]
        refine ⟨?_, Or.inl ⟨rfl, rfl⟩⟩
        rcases hIn with ⟨h1', h2'⟩ | ⟨h1', h2'⟩
        · exact Or.inl ⟨h1', h2'⟩
        · exact Or.inr ⟨h1', h2'⟩

theorem applyRawOps_inv (ops : List RawOp) :
    ∀ tm : Terminal, rawStateInv tm → rawStateInv (applyRawOps tm ops) := by
  induction ops with
  | nil => intro tm h; simpa [applyRawOps] using h
  | cons op rest ih =>
    intro tm h
    have := ih (applyRawOp tm op) (applyRawOp_inv tm op h)
    simpa [applyRawOps] using this

/-! ## StreamingProcess (stream.go in src, the generic engine over a Streamer) -/

/-- References into the small heap of Terminal objects a StreamingProcess
can hold; Go pointers to the same `term.Terminal` are modelled as equal
references. -/
inductive TermRef
  | rA
  | rB
  | rC
deriving DecidableEq, Repr

/-- The heap of Terminal objects owned by one StreamingProcess. -/
structure TermHeap where
  a : FileTerm
  b : FileTerm
  c : FileTerm
deriving DecidableEq, Repr

/-- Dereference. -/
def TermHeap.get (h : TermHeap) : TermRef → FileTerm
  | TermRef.rA => h.a
  | TermRef.rB => h.b
  | TermRef.rC => h.c

/-- Store through a reference. -/
def TermHeap.set (h : TermHeap) : TermRef → FileTerm → TermHeap
  | TermRef.rA, t => { h with a := t }
  | TermRef.rB, t => { h with b := t }
  | TermRef.rC, t => { h with c := t }

/-- Call `SetRawInput` through a possibly-nil Terminal pointer, updating the
heap. -/
def heapSetRawInput (h : TermHeap) (p : Option TermRef) : TermHeap × Option GoErr :=
  match p with
  | none => (h, none)
  | some r =>
    let q := Terminal.SetRawInput (some (h.get r))
    match q.1 with
    | some t => (h.set r t, q.2)
    | none => (h, q.2)

/-- Call `SetRawOutput` through a possibly-nil Terminal pointer. -/
def heapSetRawOutput (h : TermHeap) (p : Option TermRef) : TermHeap × Option GoErr :=
  match p with
  | none => (h, none)
  | some r =>
    let q := Terminal.SetRawOutput (some (h.get r))
    match q.1 with
    | some t => (h.set r t, q.2)
    | none => (h, q.2)

/-- Call `RestoreInput` through a possibly-nil Terminal pointer. -/
def heapRestoreInput (h : TermHeap) (p : Option TermRef) : TermHeap × Option GoErr :=
  match p with
  | none => (h, none)
  | some r =>
    let q := Terminal.RestoreInput (some (h.get r))
    match q.1 with
    | some t => (h.set r t, q.2)
    | none => (h, q.2)

/-- Call `RestoreOutput` through a possibly-nil Terminal pointer. -/
def heapRestoreOutput (h : TermHeap) (p : Option TermRef) : TermHeap × Option GoErr :=
  match p with
  | none => (h, none)
  | some r =>
    let q := Terminal.RestoreOutput (some (h.get r))
    match q.1 with
    | some t => (h.set r t, q.2)
    | none => (h, q.2)

/-- Model of the fields of `StreamingProcess` relevant to terminal raw-mode
bookkeeping: the three stream terminal pointers and the pty pointer
(possibly nil, possibly aliased), the `restoreTerms` `sync.Once` latch, and
a count of how many times the restore body has actually run. -/
structure SPState where
  terms : TermHeap
  stdoutTerm : Option TermRef
  stderrTerm : Option TermRef
  stdinTerm : Option TermRef
  ptyTerm : Option TermRef
  restoreOnce : Bool
  restoreRuns : Nat
deriving DecidableEq, Repr

/-- A fresh terminal device opened by `term.OpenTerminal`: a terminal in
non-raw mode with no saved tokens. -/
def freshTty (hgt wdt : Nat) : FileTerm :=
  { isTerminal := true, inState := none, outState := none,
    devRawIn := false, devRawOut := false, devHeight := hgt, devWidth := wdt }

/-- An `os.Pipe` endpoint wrapped by `term.NewTerminal`: not a terminal, no
tokens. -/
def pipeTerm : FileTerm :=
  { isTerminal := false, inState := none, outState := none,
    devRawIn := false, devRawOut := false, devHeight := 0, devWidth := 0 }

/-- `StreamingProcess.initTerm`: open a pty pair; the first value returned
by `term.OpenTerminal` becomes `ptyTerm`, the second is stored as both the
stdout and the stdin terminal (one shared object); `stderrTerm` is left
nil.  Slot `rC` is unused. -/
def SPState.afterInitTerm (hgt wdt : Nat) : SPState :=
  { terms := ⟨freshTty hgt wdt, freshTty hgt wdt, pipeTerm⟩,
    stdoutTerm := some TermRef.rB, stderrTerm := none, stdinTerm := some TermRef.rB,
    ptyTerm := some TermRef.rA, restoreOnce := false, restoreRuns := 0 }

/-- `StreamingProcess.initPlain`: three independent pipes, the terminal-side
endpoint of each tracked; none of them is a terminal; no pty. -/
def SPState.afterInitPlain : SPState :=
  { terms := ⟨pipeTerm, pipeTerm, pipeTerm⟩,
    stdoutTerm := some TermRef.rA, stderrTerm := some TermRef.rB,
    stdinTerm := some TermRef.rC,
    ptyTerm := none, restoreOnce := false, restoreRuns := 0 }

/-- `StreamingProcess.setRawTerminals`: raw input mode on the stdout
terminal, raw input mode on the stderr terminal, raw output mode on the
stdout terminal, stopping at the first error. -/
def SPState.setRawTerminals (s : SPState) : SPState × Option GoErr :=
  let r1 := heapSetRawInput s.terms s.stdoutTerm
  match r1.2 with
  | some e => ({ s with terms := r1.1 }, some e)
  | none =>
    let r2 := heapSetRawInput r1.1 s.stderrTerm
    match r2.2 with
    | some e => ({ s with terms := r2.1 }, some e)
    | none =>
      let r3 := heapSetRawOutput r2.1 s.stdoutTerm
      ({ s with terms := r3.1 }, r3.2)

/-- `StreamingProcess.restoreTerminals`: under the `restoreTerms`
`sync.Once`, restore input mode of the stdout and stderr terminals and
output mode of the stdin terminal, ignoring the returned errors.  (The
model omits the close of the stdin file, which does not touch raw-mode
state.) -/
def SPState.restoreTerminals (s : SPState) : SPState :=
  if s.restoreOnce then s
  else
    let r1 := heapRestoreInput s.terms s.stdoutTerm
    let r2 := heapRestoreInput r1.1 s.stderrTerm
    let r3 := heapRestoreOutput r2.1 s.stdinTerm
    { s with terms := r3.1, restoreOnce := true, restoreRuns := s.restoreRuns + 1 }

/-- Iterate `restoreTerminals`, modelling the restore callbacks handed to
the stream goroutines firing some number of times. -/
def iterRestore : Nat → SPState → SPState
  | 0, s => s
  | n + 1, s => iterRestore n (SPState.restoreTerminals s)

/-- The ways the select in `StreamingProcess.waitStreams` can return: the
output stream delivers a result (possibly an error), the input stream
finishes and then the output stream delivers, the input stream finishes and
then the context fires, or the context fires directly. -/
inductive WaitExit
  | outputDone (e : Option GoErr)
  | inputThenOutput (e : Option GoErr)
  | inputThenCancel
  | ctxCanceled
deriving DecidableEq, Repr

/-- The error `waitStreams` returns on each exit path. -/
def waitExitErr : WaitExit → Option GoErr
  | WaitExit.outputDone e => e
  | WaitExit.inputThenOutput e => e
  | WaitExit.inputThenCancel => some GoErr.ctxCanceled
  | WaitExit.ctxCanceled => some GoErr.ctxCanceled

/-- `StreamingProcess.waitStreams`, sequentialized: the stream goroutines'
restore callbacks fire `callbackRuns` times, the select returns the exit
path's value, and the deferred `restoreTerminals` runs on every path. -/
def SPState.waitStreams (s : SPState) (callbackRuns : Nat) (exit : WaitExit) :
    SPState × Option GoErr :=
  (SPState.restoreTerminals (iterRestore callbackRuns s), waitExitErr exit)

/-- Raw-mode state of a terminal object is fully released: no tokens stored
and the device back in non-raw mode. -/
def FileTerm.rawCleared (t : FileTerm) : Prop :=
  t.inState = none ∧ t.outState = none ∧ t.devRawIn = false ∧ t.devRawOut = false

/-! ### Resize forwarding and the Start path -/

/-- Calls recorded by the model of the resize-forwarding goroutine in
`StreamingProcess.Start`. -/
inductive ResizeEvent
  | ptyResize (size : WindowSize)
  | streamerResize (size : WindowSize)
deriving DecidableEq, Repr

/-- Body of the resize-forwarding goroutine: for each `WindowSize` received
until the channel closes, apply it to the local pty handle and forward it to
the Streamer, discarding both results; the loop ends when the channel
closes. -/
def resizeForwardGo (pty : Terminal) : List WindowSize → Terminal × List ResizeEvent
  | [] => (pty, [])
  | z :: rest =>
    let r := Terminal.ResizeTo pty z
    let q := resizeForwardGo r.1 rest
    (q.1, ResizeEvent.ptyResize z :: ResizeEvent.streamerResize z :: q.2)

/-- The whole forwarding goroutine: a nil channel makes it return at once
(the guard at the top of the goroutine); otherwise it ranges over the
channel until closure. -/
def resizeForwardLoop (pty : Terminal) : Option (List WindowSize) → Terminal × List ResizeEvent
  | none => (pty, [])
  | some sizes => resizeForwardGo pty sizes

/-- Sizes that were applied to the local pty handle, in order. -/
def ptySizesOf (evs : List ResizeEvent) : List WindowSize :=
  evs.filterMap fun e =>
    match e with
    | ResizeEvent.ptyResize z => some z
    | ResizeEvent.streamerResize _ => none

/-- Sizes that were forwarded to the Streamer, in order. -/
def streamerSizesOf (evs : List ResizeEvent) : List WindowSize :=
  evs.filterMap fun e =>
    match e with
    | ResizeEvent.ptyResize _ => none
    | ResizeEvent.streamerResize z => some z

/-- Calls on the Streamer recorded by the model of
`StreamingProcess.Start`/`execAndStream`. -/
inductive StreamerEvent
  | initStreamer (termName : String) (wantsPty : Bool)
  | attach (wantsPty : Bool)
  | streamOutput
  | streamInput
deriving DecidableEq, Repr

/-- Results the Streamer returns to `Start`/`execAndStream` in the model. -/
structure StreamerSpec where
  initErr : Option GoErr
  attachErr : Option GoErr
deriving DecidableEq, Repr

/-- Dereference a possibly-nil Terminal pointer into a `Terminal` value. -/
def heapGetOpt (h : TermHeap) : Option TermRef → Terminal
  | none => none
  | some r => some (h.get r)

/-- Write a `Terminal` value back through a possibly-nil pointer. -/
def heapSetOpt (h : TermHeap) : Option TermRef → Terminal → TermHeap
  | none, _ => h
  | some _, none => h
  | some r, some t => h.set r t

/-- `StreamingProcess.execAndStream`: put the local terminals into raw mode,
call `Streamer.Attach` with the `isPty` argument it was given, then start
the two stream goroutines. -/
def SPState.execAndStream (s : SPState) (sm : StreamerSpec) (wantsPty : Bool) :
    SPState × List StreamerEvent × Option GoErr :=
  let r := SPState.setRawTerminals s
  match r.2 with
  | some e => (r.1, [], some e)
  | none =>
    match sm.attachErr with
    | some e => (r.1, [StreamerEvent.attach wantsPty], some e)
    | none =>
      (r.1, [StreamerEvent.attach wantsPty, StreamerEvent.streamOutput,
        StreamerEvent.streamInput], none)

/-- `StreamingProcess.Start`: call `Streamer.Init` with the terminal name
and the pty flag; in pty mode spawn the resize-forwarding goroutine on the
given channel; then call `execAndStream` with the constant `true`.  Returns
the new state, the Streamer calls of the main control flow, the resize
calls of the forwarding goroutine, and the error. -/
def SPState.Start (s : SPState) (sm : StreamerSpec) (termName : String)
    (resizeChan : Option (List WindowSize)) (wantsPty : Bool) :
    SPState × List StreamerEvent × List ResizeEvent × Option GoErr :=
  match sm.initErr with
  | some e => (s, [StreamerEvent.initStreamer termName wantsPty], [], some e)
  | none =>
    let lr :=
      if wantsPty then resizeForwardLoop (heapGetOpt s.terms s.ptyTerm) resizeChan
      else (heapGetOpt s.terms s.ptyTerm, [])
    let s1 := { s with terms := heapSetOpt s.terms s.ptyTerm lr.1 }
    let er := SPState.execAndStream s1 sm true
    (er.1, StreamerEvent.initStreamer termName wantsPty :: er.2.1, lr.2, er.2.2)

/-! ## Command (src/unnamed/part_008): the lifecycle state machine -/

/-- The `commandState` values of part_008. -/
inductive CmdState
  | defaultState
  | initialized
  | started
  | waiting
  | done
deriving DecidableEq, Repr

/-- Behaviour of the backend `Process` driven by a `Command`: the results
its methods return.  Each method returns the same result on every call; how
often each method is invoked is recorded in the `Cmd` state. -/
structure ProcSpec where
  procInitErr : Option GoErr
  stdinErr : Option GoErr
  stdoutErr : Option GoErr
  stderrErr : Option GoErr
  startErr : Option GoErr
  stopErr : Option GoErr
  waitCode : Int
  waitResErr : Option GoErr
  procCleanupErr : Option GoErr
deriving DecidableEq, Repr

/-- State of a `Command` (part_008 lines 15-30) together with invocation
counters on its backend Process.  `waitChanMade`/`waitChanClosed` model the
`waitChan` channel; the mutex is implicit in the sequential semantics. -/
structure Cmd where
  state : CmdState
  isPty : Bool
  waitChanMade : Bool
  waitChanClosed : Bool
  waitExitCode : Int
  waitErr : Option GoErr
  cleanupOnceDone : Bool
  cleanupErr : Option GoErr
  nProcInit : Nat
  nProcStart : Nat
  nProcWait : Nat
  nProcStop : Nat
  nProcCleanup : Nat
deriving DecidableEq, Repr

/-- The Go zero value of a `Command`. -/
def Cmd.fresh : Cmd :=
  { state := CmdState.defaultState, isPty := false,
    waitChanMade := false, waitChanClosed := false,
    waitExitCode := 0, waitErr := none,
    cleanupOnceDone := false, cleanupErr := none,
    nProcInit := 0, nProcStart := 0, nProcWait := 0, nProcStop := 0, nProcCleanup := 0 }

/-- `Command.Init` (part_008 lines 48-64): reject when the default state has
already been left, call `Process.Init`, and on success record the
initialized state and the pty flag. -/
def Cmd.InitCall (p : ProcSpec) (c : Cmd) (isTty : Bool) : Cmd × Option GoErr :=
  if c.state ≠ CmdState.defaultState then (c, some GoErr.commandAlreadyInitialized)
  else
    let c1 := { c with nProcInit := c.nProcInit + 1 }
    match p.procInitErr with
    | some e => (c1, some e)
    | none => ({ c1 with state := CmdState.initialized, isPty := isTty }, none)

/-- `Command.Start` (part_008 lines 76-122).  Note that the guard for a
wrong state returns `errCommandIsATerminal`, not `errCommandNotInitialized`;
the state is set to started before the streams are fetched; `Process.Start`
is reached only when all three stream getters succeed. -/
def Cmd.StartCall (p : ProcSpec) (c : Cmd) : Cmd × Option GoErr :=
  if c.state ≠ CmdState.initialized then (c, some GoErr.commandIsATerminal)
  else if c.isPty then (c, some GoErr.commandIsATerminal)
  else
    let c1 := { c with state := CmdState.started }
    match p.stdinErr with
    | some e => (c1, some e)
    | none =>
      match p.stdoutErr with
      | some e => (c1, some e)
      | none =>
        match p.stderrErr with
        | some e => (c1, some e)
        | none => ({ c1 with nProcStart := c1.nProcStart + 1 }, p.startErr)

/-- `Command.StartPty` (part_008 lines 133-165): reject with
`errCommandNotInitialized` outside the initialized state and with
`errCommandNotATerminal` when the controller was not initialized for pty
use; otherwise start the process on the terminal. -/
def Cmd.StartPtyCall (p : ProcSpec) (c : Cmd) : Cmd × Option GoErr :=
  if c.state ≠ CmdState.initialized then (c, some GoErr.commandNotInitialized)
  else if ¬c.isPty then (c, some GoErr.commandNotATerminal)
  else
    let c1 := { c with state := CmdState.started, nProcStart := c.nProcStart + 1 }
    (c1, p.startErr)

/-- The locked section of `Command.cleanup` (part_008 lines 247-256): a
"process is running" error unless the run is done. -/
def Cmd.cleanupLock (c : Cmd) : Option GoErr :=
  if c.state ≠ CmdState.done then some GoErr.commandRunning else none

/-- `Command.Cleanup` (part_008 lines 234-243): after the state check,
invoke `Process.Cleanup` under the `cleanupOnce` latch and return the stored
result. -/
def Cmd.CleanupCall (p : ProcSpec) (c : Cmd) : Cmd × Option GoErr :=
  match Cmd.cleanupLock c with
  | some e => (c, some e)
  | none =>
    if c.cleanupOnceDone then (c, c.cleanupErr)
    else
      ({ c with
          cleanupOnceDone := true
          nProcCleanup := c.nProcCleanup + 1
          cleanupErr := p.procCleanupErr }, p.procCleanupErr)

/-- The locked section of `Command.wait` (part_008 lines 180-196): nil when
already waiting or done, a "not running" error outside the started state,
otherwise move to waiting, make the channel and spawn the waiter. -/
def Cmd.waitLock (c : Cmd) : Cmd × Option GoErr :=
  if c.state = CmdState.waiting ∨ c.state = CmdState.done then (c, none)
  else if c.state ≠ CmdState.started then (c, some GoErr.commandNotRunning)
  else ({ c with state := CmdState.waiting, waitChanMade := true }, none)

/-- `Command.waiter` (part_008 lines 198-209) run to completion, including
the asynchronous `Cleanup` it spawns: invoke `Process.Wait` once, record the
result, mark the run done, close the channel, then run the spawned
`Cleanup`. -/
def Cmd.waiterRun (p : ProcSpec) (c : Cmd) : Cmd :=
  let c1 := { c with nProcWait := c.nProcWait + 1 }
  let c2 := { c1 with
              state := CmdState.done
              waitExitCode := p.waitCode
              waitErr := p.waitResErr
              waitChanClosed := true }
  (Cmd.CleanupCall p c2).1

/-- `Command.Wait` (part_008 lines 168-176), sequentialized: the first
caller in the started state arms the waiter, which the model runs to
completion before the caller reads the stored pair; later callers find the
result already stored and return the identical pair. -/
def Cmd.WaitCall (p : ProcSpec) (c : Cmd) : Cmd × Int × Option GoErr :=
  let r := Cmd.waitLock c
  match r.2 with
  | some e => (r.1, 0, some e)
  | none =>
    let c1 := if r.1.state = CmdState.done then r.1 else Cmd.waiterRun p r.1
    (c1, c1.waitExitCode, c1.waitErr)

/-- `Command.Stop` (part_008 lines 214-230): the guard admits only the
started and waiting states, so the subsequent done-state check can never
fire; in the admitted states it forwards to `Process.Stop` without changing
the controller state. -/
def Cmd.StopCall (p : ProcSpec) (c : Cmd) : Cmd × Option GoErr :=
  if c.state ≠ CmdState.started ∧ c.state ≠ CmdState.waiting then
    (c, some GoErr.commandNotRunning)
  else if c.state = CmdState.done then (c, none)
  else ({ c with nProcStop := c.nProcStop + 1 }, p.stopErr)

/-- Run `Wait` a number of times in sequence, collecting the returned
pairs. -/
def Cmd.iterWait (p : ProcSpec) : Nat → Cmd → List (Int × Option GoErr) × Cmd
  | 0, c => ([], c)
  | n + 1, c =>
    let r := Cmd.WaitCall p c
    let q := Cmd.iterWait p n r.1
    (r.2 :: q.1, q.2)

/-- Run `Cleanup` a number of times in sequence, collecting the returned
errors. -/
def Cmd.iterCleanup (p : ProcSpec) : Nat → Cmd → List (Option GoErr) × Cmd
  | 0, c => ([], c)
  | n + 1, c =>
    let r := Cmd.CleanupCall p c
    let q := Cmd.iterCleanup p n r.1
    (r.2 :: q.1, q.2)

/-! ## Helper lemmas for the Command theorems -/

/-- Process spec whose methods all succeed, exit code 0. -/
def pOk : ProcSpec :=
  { procInitErr := none, stdinErr := none, stdoutErr := none, stderrErr := none,
    startErr := none, stopErr := none, waitCode := 0, waitResErr := none,
    procCleanupErr := none }

/-- Process spec with all stream and start methods succeeding, the remaining
results free. -/
def pRun (code : Int) (we ce se : Option GoErr) : ProcSpec :=
  { procInitErr := none, stdinErr := none, stdoutErr := none, stderrErr := none,
    startErr := none, stopErr := se, waitCode := code, waitResErr := we,
    procCleanupErr := ce }

/-- The command state after a successful `Init(ctx, false)` followed by a
successful `Start`. -/
def startedCmd (code : Int) (we ce se : Option GoErr) : Cmd :=
  (Cmd.StartCall (pRun code we ce se) (Cmd.InitCall (pRun code we ce se) Cmd.fresh false).1).1

/-- The command state after `Init(false)`, `Start`, and one full `Wait`
(waiter and its spawned asynchronous Cleanup included). -/
def doneCmd (code : Int) (we ce se : Option GoErr) : Cmd :=
  { state := CmdState.done, isPty := false, waitChanMade := true, waitChanClosed := true,
    waitExitCode := code, waitErr := we, cleanupOnceDone := true, cleanupErr := ce,
    nProcInit := 1, nProcStart := 1, nProcWait := 1, nProcStop := 0, nProcCleanup := 1 }

theorem waitCall_startedCmd (code : Int) (we ce se : Option GoErr) :
    Cmd.WaitCall (pRun code we ce se) (startedCmd code we ce se) =
      (doneCmd code we ce se, code, we) := rfl

theorem waitCall_done (p : ProcSpec) (c : Cmd) (h : c.state = CmdState.done) :
    Cmd.WaitCall p c = (c, c.waitExitCode, c.waitErr) := by
  simp [Cmd.WaitCall, Cmd.waitLock, h]

theorem iterWait_done (p : ProcSpec) (n : Nat) (c : Cmd) (h : c.state = CmdState.done) :
    Cmd.iterWait p n c = (List.replicate n (c.waitExitCode, c.waitErr), c) := by
  induction n with
  | zero => simp [Cmd.iterWait]
  | succ m ih => simp [Cmd.iterWait, waitCall_done p c h, ih, List.replicate_succ]

theorem cleanupCall_latched (p : ProcSpec) (c : Cmd) (h1 : c.state = CmdState.done)
    (h2 : c.cleanupOnceDone = true) : Cmd.CleanupCall p c = (c, c.cleanupErr) := by
  simp [Cmd.CleanupCall, Cmd.cleanupLock, h1, h2]

theorem iterCleanup_latched (p : ProcSpec) (n : Nat) (c : Cmd)
    (h1 : c.state = CmdState.done) (h2 : c.cleanupOnceDone = true) :
    Cmd.iterCleanup p n c = (List.replicate n c.cleanupErr, c) := by
  induction n with
  | zero => simp [Cmd.iterCleanup]
  | succ m ih =>
    simp [Cmd.iterCleanup, cleanupCall_latched p c h1 h2, ih, List.replicate_succ]

/-! ## Claim theorems -/

/-- C1: for every finite sequence of `Close`/`CloseWrite` calls on a
`DualCloserWrapper`, the wrapped resource's `Close` is invoked exactly once
when the sequence contains at least one call of each kind and never
otherwise; since the same formula holds for every prefix of the sequence,
the single invocation happens precisely at the first call at which both
distinct operations have occurred. -/
theorem dualCloserWrapper_close_exactly_once (ops : List DCOp) :
    (dcwRun ops).underlyingCloseCalls =
      (if DCOp.close ∈ ops ∧ DCOp.closeWrite ∈ ops then 1 else 0) ∧
    ∀ n : Nat, (dcwRun (ops.take n)).underlyingCloseCalls =
      (if DCOp.close ∈ ops.take n ∧ DCOp.closeWrite ∈ ops.take n then 1 else 0) :=
  ⟨dcwRun_spec ops, fun n => dcwRun_spec (ops.take n)⟩

/-- C3 (divergence record): `Start` called on a controller still in the
default state returns the "is a terminal" error — not the "not initialized"
error the claim states — though it indeed never reaches `Process.Start`;
`StartPty` before `Init` returns "not initialized"; `Start` after a pty
`Init` returns "is a terminal"; `StartPty` after a non-pty `Init` returns
"not a terminal". -/
theorem command_start_state_errors :
    (Cmd.StartCall pOk Cmd.fresh).2 = some GoErr.commandIsATerminal ∧
    (Cmd.StartCall pOk Cmd.fresh).1.nProcStart = 0 ∧
    (Cmd.StartPtyCall pOk Cmd.fresh).2 = some GoErr.commandNotInitialized ∧
    (Cmd.StartPtyCall pOk Cmd.fresh).1.nProcStart = 0 ∧
    (Cmd.StartCall pOk (Cmd.InitCall pOk Cmd.fresh true).1).2 =
      some GoErr.commandIsATerminal ∧
    (Cmd.StartPtyCall pOk (Cmd.InitCall pOk Cmd.fresh false).1).2 =
      some GoErr.commandNotATerminal := by
  decide

/-- C4 (divergence record): once the controller is done, `Stop` returns the
"process is not running" error — the done-state nil return in the source is
unreachable — while in the started state it forwards to `Process.Stop`
without changing the controller state, and in earlier states it returns the
state error. -/
theorem command_stop_after_done_errors :
    (Cmd.WaitCall (pRun 3 none none (some (GoErr.backendErr 7)))
        (startedCmd 3 none none (some (GoErr.backendErr 7)))).1.state = CmdState.done ∧
    Cmd.StopCall (pRun 3 none none (some (GoErr.backendErr 7)))
        (doneCmd 3 none none (some (GoErr.backendErr 7))) =
      (doneCmd 3 none none (some (GoErr.backendErr 7)), some GoErr.commandNotRunning) ∧
    (Cmd.StopCall (pRun 3 none none (some (GoErr.backendErr 7)))
        (startedCmd 3 none none (some (GoErr.backendErr 7)))).2 =
      some (GoErr.backendErr 7) ∧
    (Cmd.StopCall (pRun 3 none none (some (GoErr.backendErr 7)))
        (startedCmd 3 none none (some (GoErr.backendErr 7)))).1.nProcStop = 1 ∧
    (Cmd.StopCall (pRun 3 none none (some (GoErr.backendErr 7)))
        (startedCmd 3 none none (some (GoErr.backendErr 7)))).1.state = CmdState.started ∧
    (Cmd.StopCall pOk Cmd.fresh).2 = some GoErr.commandNotRunning ∧
    (Cmd.StopCall pOk (Cmd.InitCall pOk Cmd.fresh false).1).2 =
      some GoErr.commandNotRunning := by
  decide

/-- C9: wrapping an absent descriptor yields the nil handle, on which
`IsTerminal` is false, `GetSize` and `ResizeTo` report `ErrNotATerminal` for
every size, `Close` succeeds, and every raw-mode mutator returns nil with no
effect; the interface-based `nilTerminal` null object behaves the same
way. -/
theorem nilHandle_null_object :
    NewTerminal none = none ∧
    Terminal.IsTerminal (NewTerminal none) = false ∧
    Terminal.GetSize (NewTerminal none) = (none, some GoErr.notATerminal) ∧
    (∀ size : WindowSize,
      Terminal.ResizeTo (NewTerminal none) size = (none, some GoErr.notATerminal)) ∧
    Terminal.Close (NewTerminal none) = none ∧
    Terminal.SetRawInput (NewTerminal none) = (none, none) ∧
    Terminal.RestoreInput (NewTerminal none) = (none, none) ∧
    Terminal.SetRawOutput (NewTerminal none) = (none, none) ∧
    Terminal.RestoreOutput (NewTerminal none) = (none, none) ∧
    nilTerminalIsTerminal = false ∧
    nilTerminalGetSize = (none, some GoErr.notATerminal) ∧
    (∀ size : WindowSize, nilTerminalResizeTo size = some GoErr.notATerminal) ∧
    nilTerminalClose = none ∧
    nilTerminalSetRawInput = none ∧
    nilTerminalRestoreInput = none ∧
    nilTerminalSetRawOutput = none ∧
    nilTerminalRestoreOutput = none :=
  ⟨rfl, rfl, rfl, fun _ => rfl, rfl, rfl, rfl, rfl, rfl, rfl, rfl, fun _ => rfl,
    rfl, rfl, rfl, rfl, rfl⟩

/-- C2: after a successful `Init(false)` and `Start`, any positive number of
sequential `Wait` calls invokes `Process.Wait` exactly once, and every call
returns the identical stored `(exitCode, error)` pair produced by
`Process.Wait`. -/
theorem command_wait_exactly_once (code : Int) (we ce se : Option GoErr) (n : Nat) :
    (Cmd.InitCall (pRun code we ce se) Cmd.fresh false).2 = none ∧
    (Cmd.StartCall (pRun code we ce se)
      (Cmd.InitCall (pRun code we ce se) Cmd.fresh false).1).2 = none ∧
    (Cmd.iterWait (pRun code we ce se) (n + 1) (startedCmd code we ce se)).1 =
      List.replicate (n + 1) (code, we) ∧
    (Cmd.iterWait (pRun code we ce se) (n + 1) (startedCmd code we ce se)).2.nProcWait = 1 := by
  refine ⟨rfl, rfl, ?_, ?_⟩ <;>
  · have hstep : Cmd.iterWait (pRun code we ce se) (n + 1) (startedCmd code we ce se) =
        ((code, we) :: (Cmd.iterWait (pRun code we ce se) n (doneCmd code we ce se)).1,
          (Cmd.iterWait (pRun code we ce se) n (doneCmd code we ce se)).2) := by
      simp [Cmd.iterWait, waitCall_startedCmd]
    rw [hstep, iterWait_done (pRun code we ce se) n (doneCmd code we ce se) rfl]
    simp [doneCmd, List.replicate_succ]

/-- C5: `Cleanup` called in any state before done returns the "process is
running" error without invoking `Process.Cleanup`; once the run is done,
however many times `Cleanup` is called, `Process.Cleanup` fires exactly once
and every call returns the same stored result — both when the waiter's
asynchronous cleanup already fired (post-`Wait` state) and when the calls
themselves race for the latch (a done state whose latch is still clear). -/
theorem command_cleanup_single_fire (code : Int) (we ce se : Option GoErr) (n : Nat) :
    Cmd.CleanupCall (pRun code we ce se) Cmd.fresh =
      (Cmd.fresh, some GoErr.commandRunning) ∧
    Cmd.CleanupCall (pRun code we ce se)
        (Cmd.InitCall (pRun code we ce se) Cmd.fresh false).1 =
      ((Cmd.InitCall (pRun code we ce se) Cmd.fresh false).1,
        some GoErr.commandRunning) ∧
    Cmd.CleanupCall (pRun code we ce se) (startedCmd code we ce se) =
      (startedCmd code we ce se, some GoErr.commandRunning) ∧
    (Cmd.iterCleanup (pRun code we ce se) (n + 1) (doneCmd code we ce se)).1 =
      List.replicate (n + 1) ce ∧
    (Cmd.iterCleanup (pRun code we ce se) (n + 1) (doneCmd code we ce se)).2.nProcCleanup = 1 ∧
    (Cmd.iterCleanup (pRun code we ce se) (n + 1)
        { doneCmd code we ce se with
          cleanupOnceDone := false
          cleanupErr := none
          nProcCleanup := 0 }).1 = List.replicate (n + 1) ce ∧
    (Cmd.iterCleanup (pRun code we ce se) (n + 1)
        { doneCmd code we ce se with
          cleanupOnceDone := false
          cleanupErr := none
          nProcCleanup := 0 }).2.nProcCleanup = 1 := by
  have hdone : Cmd.iterCleanup (pRun code we ce se) (n + 1) (doneCmd code we ce se) =
      (List.replicate (n + 1) ce, doneCmd code we ce se) := by
    have h := iterCleanup_latched (pRun code we ce se) (n + 1) (doneCmd code we ce se) rfl rfl
    simpa [doneCmd] using h
  have hfirst : Cmd.CleanupCall (pRun code we ce se)
      { doneCmd code we ce se with
        cleanupOnceDone := false
        cleanupErr := none
        nProcCleanup := 0 } = (doneCmd code we ce se, ce) := rfl
  have hraw : Cmd.iterCleanup (pRun code we ce se) (n + 1)
      { doneCmd code we ce se with
        cleanupOnceDone := false
        cleanupErr := none
        nProcCleanup := 0 } =
      (ce :: (Cmd.iterCleanup (pRun code we ce se) n (doneCmd code we ce se)).1,
        (Cmd.iterCleanup (pRun code we ce se) n (doneCmd code we ce se)).2) := by
    simp [Cmd.iterCleanup, hfirst]
  have hdn : Cmd.iterCleanup (pRun code we ce se) n (doneCmd code we ce se) =
      (List.replicate n ce, doneCmd code we ce se) := by
    have h := iterCleanup_latched (pRun code we ce se) n (doneCmd code we ce se) rfl rfl
    simpa [doneCmd] using h
  refine ⟨rfl, rfl, rfl, ?_, ?_, ?_, ?_⟩
  · rw [hdone]
  · rw [hdone]
    simp [doneCmd]
  · rw [hraw, hdn]
    simp [List.replicate_succ]
  · rw [hraw, hdn]
    simp [doneCmd]

/-- Whether a handle currently stores an input raw-state token. -/
def termInTokenSet : Terminal → Bool
  | none => false
  | some t => t.inState.isSome

/-- Whether a handle currently stores an output raw-state token. -/
def termOutTokenSet : Terminal → Bool
  | none => false
  | some t => t.outState.isSome

/-- C7: on a terminal handle the sequence `SetRawInput`, `RestoreInput`,
`SetRawInput` succeeds at every step, the restore clears the stored input
token, and the final call re-acquires raw mode; the same holds for the
`SetRawOutput`/`RestoreOutput` pair; and under every sequence of the four
raw-mode mutators, starting from a freshly wrapped descriptor in non-raw
mode, a raw-state token is stored exactly when the corresponding raw mode is
currently applied to the device. -/
theorem terminal_raw_pair_reusable (ri ro : Bool) (h1 w1 : Nat) (b : Bool)
    (h2 w2 : Nat) (ops : List RawOp) :
    (Terminal.SetRawInput (NewTerminal (some ⟨true, ri, ro, h1, w1⟩))).2 = none ∧
    termInTokenSet (Terminal.SetRawInput (NewTerminal (some ⟨true, ri, ro, h1, w1⟩))).1 =
      true ∧
    (Terminal.RestoreInput
      (Terminal.SetRawInput (NewTerminal (some ⟨true, ri, ro, h1, w1⟩))).1).2 = none ∧
    termInTokenSet (Terminal.RestoreInput
      (Terminal.SetRawInput (NewTerminal (some ⟨true, ri, ro, h1, w1⟩))).1).1 = false ∧
    (Terminal.SetRawInput (Terminal.RestoreInput
      (Terminal.SetRawInput (NewTerminal (some ⟨true, ri, ro, h1, w1⟩))).1).1).2 = none ∧
    termInTokenSet (Terminal.SetRawInput (Terminal.RestoreInput
      (Terminal.SetRawInput (NewTerminal (some ⟨true, ri, ro, h1, w1⟩))).1).1).1 = true ∧
    (Terminal.SetRawOutput (NewTerminal (some ⟨true, ri, ro, h1, w1⟩))).2 = none ∧
    termOutTokenSet (Terminal.SetRawOutput (NewTerminal (some ⟨true, ri, ro, h1, w1⟩))).1 =
      true ∧
    (Terminal.RestoreOutput
      (Terminal.SetRawOutput (NewTerminal (some ⟨true, ri, ro, h1, w1⟩))).1).2 = none ∧
    termOutTokenSet (Terminal.RestoreOutput
      (Terminal.SetRawOutput (NewTerminal (some ⟨true, ri, ro, h1, w1⟩))).1).1 = false ∧
    (Terminal.SetRawOutput (Terminal.RestoreOutput
      (Terminal.SetRawOutput (NewTerminal (some ⟨true, ri, ro, h1, w1⟩))).1).1).2 = none ∧
    termOutTokenSet (Terminal.SetRawOutput (Terminal.RestoreOutput
      (Terminal.SetRawOutput (NewTerminal (some ⟨true, ri, ro, h1, w1⟩))).1).1).1 = true ∧
    tokensMatchModes (applyRawOps (NewTerminal (some ⟨b, false, false, h2, w2⟩)) ops) := by
  refine ⟨rfl, rfl, rfl, rfl, rfl, rfl, rfl, rfl, rfl, rfl, rfl, rfl, ?_⟩
  apply rawStateInv_tokensMatchModes
  apply applyRawOps_inv
  exact ⟨Or.inl ⟨rfl, rfl⟩, Or.inl ⟨rfl, rfl⟩⟩

/-! ## Resize-forwarding lemmas -/

theorem resizeForwardGo_trace (sizes : List WindowSize) :
    ∀ pty : Terminal, (resizeForwardGo pty sizes).2 =
      sizes.flatMap fun z => [ResizeEvent.ptyResize z, ResizeEvent.streamerResize z] := by
  induction sizes with
  | nil => intro pty; simp [resizeForwardGo]
  | cons z rest ih =>
    intro pty
    simp [resizeForwardGo, ih, List.flatMap_cons]

theorem ptySizesOf_pairs (sizes : List WindowSize) :
    ptySizesOf (sizes.flatMap fun z =>
      [ResizeEvent.ptyResize z, ResizeEvent.streamerResize z]) = sizes := by
  induction sizes with
  | nil => simp [ptySizesOf]
  | cons z rest ih =>
    simp only [List.flatMap_cons]
    simpa [ptySizesOf, List.filterMap_cons] using ih

theorem streamerSizesOf_pairs (sizes : List WindowSize) :
    streamerSizesOf (sizes.flatMap fun z =>
      [ResizeEvent.ptyResize z, ResizeEvent.streamerResize z]) = sizes := by
  induction sizes with
  | nil => simp [streamerSizesOf]
  | cons z rest ih =>
    simp only [List.flatMap_cons]
    simpa [streamerSizesOf, List.filterMap_cons] using ih

theorem length_pairs (sizes : List WindowSize) :
    (sizes.flatMap fun z =>
      [ResizeEvent.ptyResize z, ResizeEvent.streamerResize z]).length =
      2 * sizes.length := by
  induction sizes with
  | nil => rfl
  | cons z rest ih =>
    simp only [List.flatMap_cons, List.length_append, List.length_cons,
      List.length_nil, List.length_cons, ih]
    omega

/-- C8: when the resize channel emits a finite list of sizes and then
closes, the forwarding loop spawned by `Start` in pty mode applies exactly
those sizes, in emission order, both to the local pty handle and to the
Streamer (the calls interleave pairwise per size), and makes no further call
after the channel closes; a nil channel produces no calls at all. -/
theorem resize_forwarding_in_order (pty : Terminal) (sizes : List WindowSize) :
    (resizeForwardLoop pty (some sizes)).2 =
      (sizes.flatMap fun z => [ResizeEvent.ptyResize z, ResizeEvent.streamerResize z]) ∧
    ptySizesOf (resizeForwardLoop pty (some sizes)).2 = sizes ∧
    streamerSizesOf (resizeForwardLoop pty (some sizes)).2 = sizes ∧
    (resizeForwardLoop pty (some sizes)).2.length = 2 * sizes.length ∧
    (resizeForwardLoop pty none).2 = [] := by
  have ht : (resizeForwardLoop pty (some sizes)).2 =
      sizes.flatMap fun z => [ResizeEvent.ptyResize z, ResizeEvent.streamerResize z] :=
    resizeForwardGo_trace sizes pty
  refine ⟨ht, ?_, ?_, ?_, rfl⟩
  · rw [ht, ptySizesOf_pairs]
  · rw [ht, streamerSizesOf_pairs]
  · rw [ht, length_pairs]

/-- Flags carried by the `Attach` calls in a streamer trace. -/
def attachFlagsOf (evs : List StreamerEvent) : List Bool :=
  evs.filterMap fun e =>
    match e with
    | StreamerEvent.attach b => some b
    | _ => none

/-- The stdout/stdin terminal of the pty configuration after both raw-mode
calls of `setRawTerminals`. -/
def rawTty (hgt wdt : Nat) : FileTerm :=
  { isTerminal := true, inState := some ⟨TermDir.input, false⟩,
    outState := some ⟨TermDir.output, false⟩,
    devRawIn := true, devRawOut := true, devHeight := hgt, devWidth := wdt }

/-- Raw-mode setup in the pty configuration succeeds whatever the resize
loop did to the pty slot, since it only touches the shared stdout/stdin
slot. -/
theorem setRawTerminals_initTerm_heap (ta : FileTerm) (hgt wdt : Nat) :
    SPState.setRawTerminals
      { terms := ⟨ta, freshTty hgt wdt, pipeTerm⟩, stdoutTerm := some TermRef.rB,
        stderrTerm := none, stdinTerm := some TermRef.rB, ptyTerm := some TermRef.rA,
        restoreOnce := false, restoreRuns := 0 } =
      ({ terms := ⟨ta, rawTty hgt wdt, pipeTerm⟩, stdoutTerm := some TermRef.rB,
         stderrTerm := none, stdinTerm := some TermRef.rB, ptyTerm := some TermRef.rA,
         restoreOnce := false, restoreRuns := 0 }, none) := rfl

/-- Writing any Terminal value through the pty pointer of the pty
configuration leaves the heap in the shape the raw-mode lemma expects. -/
theorem heapSetOpt_initTerm (hgt wdt : Nat) (v : Terminal) :
    ∃ ta : FileTerm,
      heapSetOpt (TermHeap.mk (freshTty hgt wdt) (freshTty hgt wdt) pipeTerm)
        (some TermRef.rA) v = ⟨ta, freshTty hgt wdt, pipeTerm⟩ := by
  cases v with
  | none => exact ⟨freshTty hgt wdt, rfl⟩
  | some t => exact ⟨t, rfl⟩

theorem execAndStream_flags_true (s : SPState) (sm : StreamerSpec) :
    (attachFlagsOf (SPState.execAndStream s sm true).2.1).all (fun x => x) = true := by
  cases h1 : (SPState.setRawTerminals s).2 with
  | some e => simp [SPState.execAndStream, h1, attachFlagsOf]
  | none =>
    cases h2 : sm.attachErr with
    | some e => simp [SPState.execAndStream, h1, h2, attachFlagsOf]
    | none => simp [SPState.execAndStream, h1, h2, attachFlagsOf]

/-- C10: `Start` always calls `execAndStream` with the constant `true`, so
whatever the value of its own `isPty` argument, every `Attach` call it makes
on the Streamer carries `isPty = true`; from either initialized state, when
the Streamer's `Init` succeeds, exactly one `Attach` call is made and it
carries `true`. -/
theorem start_attaches_with_pty_true (ae : Option GoErr) (termName : String)
    (chan : Option (List WindowSize)) (wantsPty : Bool) (hgt wdt : Nat)
    (sm : StreamerSpec) (s : SPState) :
    attachFlagsOf
      (SPState.Start SPState.afterInitPlain ⟨none, ae⟩ termName chan wantsPty).2.1 =
      [true] ∧
    attachFlagsOf
      (SPState.Start (SPState.afterInitTerm hgt wdt) ⟨none, ae⟩ termName chan
        wantsPty).2.1 = [true] ∧
    (attachFlagsOf (SPState.Start s sm termName chan wantsPty).2.1).all (fun x => x) =
      true := by
  refine ⟨?_, ?_, ?_⟩
  · cases ae <;> cases wantsPty <;> cases chan <;> rfl
  · obtain ⟨ta, hta⟩ := heapSetOpt_initTerm hgt wdt
      (if wantsPty then
        resizeForwardLoop
          (heapGetOpt ⟨freshTty hgt wdt, freshTty hgt wdt, pipeTerm⟩
            (some TermRef.rA)) chan
       else (heapGetOpt ⟨freshTty hgt wdt, freshTty hgt wdt, pipeTerm⟩
            (some TermRef.rA), [])).1
    cases ae <;>
      simp [SPState.Start, SPState.execAndStream, SPState.afterInitTerm, hta,
        setRawTerminals_initTerm_heap, attachFlagsOf, List.filterMap_cons]
  · cases hi : sm.initErr with
    | some e => simp [SPState.Start, hi, attachFlagsOf]
    | none =>
      have h := execAndStream_flags_true
        { s with
          terms := (heapSetOpt s.terms s.ptyTerm
            (if wantsPty then resizeForwardLoop (heapGetOpt s.terms s.ptyTerm) chan
             else (heapGetOpt s.terms s.ptyTerm, [])).1) } sm
      simpa [SPState.Start, hi, attachFlagsOf, List.filterMap_cons] using h

/-! ## Restore-exactly-once lemmas -/

theorem restoreTerminals_once (s : SPState) :
    (SPState.restoreTerminals s).restoreOnce = true := by
  by_cases h : s.restoreOnce = true <;> simp [SPState.restoreTerminals, h]

theorem restoreTerminals_latched (s : SPState) (h : s.restoreOnce = true) :
    SPState.restoreTerminals s = s := by
  simp [SPState.restoreTerminals, h]

theorem iterRestore_latched (n : Nat) :
    ∀ s : SPState, s.restoreOnce = true → iterRestore n s = s := by
  induction n with
  | zero => intro s _; rfl
  | succ m ih =>
    intro s h
    simp [iterRestore, restoreTerminals_latched s h, ih s h]

theorem waitRestore_collapse (cbs : Nat) (s : SPState) :
    SPState.restoreTerminals (iterRestore cbs s) = SPState.restoreTerminals s := by
  cases cbs with
  | zero => rfl
  | succ m =>
    have h1 : iterRestore m (SPState.restoreTerminals s) = SPState.restoreTerminals s :=
      iterRestore_latched m _ (restoreTerminals_once s)
    simp [iterRestore, h1, restoreTerminals_latched _ (restoreTerminals_once s)]

/-- C6: from either initialized configuration, `setRawTerminals` succeeds
(and in the pty configuration really applies raw input and raw output mode
on the stdout-side terminal); then on every exit path of `Wait` — output
completing with or without error, input completing then output, or context
cancellation — and for any number of firings of the stream goroutines'
restore callbacks, the restore body runs exactly once in total, and every
raw-mode state that `setRawTerminals` applied is released on all three
terminal slots. -/
theorem streaming_wait_restores_exactly_once (hgt wdt cbs : Nat) (exit : WaitExit) :
    (SPState.setRawTerminals (SPState.afterInitTerm hgt wdt)).2 = none ∧
    (SPState.setRawTerminals
      (SPState.afterInitTerm hgt wdt)).1.terms.b.inState.isSome = true ∧
    (SPState.setRawTerminals
      (SPState.afterInitTerm hgt wdt)).1.terms.b.outState.isSome = true ∧
    (SPState.waitStreams (SPState.setRawTerminals (SPState.afterInitTerm hgt wdt)).1
      cbs exit).2 = waitExitErr exit ∧
    (SPState.waitStreams (SPState.setRawTerminals (SPState.afterInitTerm hgt wdt)).1
      cbs exit).1.restoreRuns = 1 ∧
    FileTerm.rawCleared
      (SPState.waitStreams (SPState.setRawTerminals (SPState.afterInitTerm hgt wdt)).1
        cbs exit).1.terms.a ∧
    FileTerm.rawCleared
      (SPState.waitStreams (SPState.setRawTerminals (SPState.afterInitTerm hgt wdt)).1
        cbs exit).1.terms.b ∧
    FileTerm.rawCleared
      (SPState.waitStreams (SPState.setRawTerminals (SPState.afterInitTerm hgt wdt)).1
        cbs exit).1.terms.c ∧
    (SPState.setRawTerminals SPState.afterInitPlain).2 = none ∧
    (SPState.waitStreams (SPState.setRawTerminals SPState.afterInitPlain).1
      cbs exit).1.restoreRuns = 1 ∧
    FileTerm.rawCleared
      (SPState.waitStreams (SPState.setRawTerminals SPState.afterInitPlain).1
        cbs exit).1.terms.a ∧
    FileTerm.rawCleared
      (SPState.waitStreams (SPState.setRawTerminals SPState.afterInitPlain).1
        cbs exit).1.terms.b ∧
    FileTerm.rawCleared
      (SPState.waitStreams (SPState.setRawTerminals SPState.afterInitPlain).1
        cbs exit).1.terms.c := by
  have hterm : (SPState.waitStreams
      (SPState.setRawTerminals (SPState.afterInitTerm hgt wdt)).1 cbs exit).1 =
      SPState.restoreTerminals
        (SPState.setRawTerminals (SPState.afterInitTerm hgt wdt)).1 := by
    simp [SPState.waitStreams, waitRestore_collapse]
  have hplain : (SPState.waitStreams
      (SPState.setRawTerminals SPState.afterInitPlain).1 cbs exit).1 =
      SPState.restoreTerminals (SPState.setRawTerminals SPState.afterInitPlain).1 := by
    simp [SPState.waitStreams, waitRestore_collapse]
  refine ⟨rfl, rfl, rfl, rfl, ?_, ?_, ?_, ?_, rfl, ?_, ?_, ?_, ?_⟩
  · rw [hterm]; rfl
  · rw [hterm]; exact ⟨rfl, rfl, rfl, rfl⟩
  · rw [hterm]; exact ⟨rfl, rfl, rfl, rfl⟩
  · rw [hterm]; exact ⟨rfl, rfl, rfl, rfl⟩
  · rw [hplain]; rfl
  · rw [hplain]; exact ⟨rfl, rfl, rfl, rfl⟩
  · rw [hplain]; exact ⟨rfl, rfl, rfl, rfl⟩
  · rw [hplain]; exact ⟨rfl, rfl, rfl, rfl⟩

end Procutil
